import Mathlib

/-!
# lattix client (`client.go`): a shallow embedding

The Go file `client.go` is embedded function by function.  Go strings are lists of
characters, `uint64` values are natural numbers reduced modulo `2 ^ 64` where the
source can wrap, and every effect (key files, dialing, the two RPCs, randomness,
process termination) is explicit state passing over `World`.
-/

namespace Lattix

/-! ## Errors and control outcomes -/

/-- Go `error` values that the client can hand back to its caller. -/
inductive Error where
  /-- Go `&strconv.NumError{"ParseUint", num, strconv.ErrSyntax}` -/
  | numSyntaxErr (num : List Char)
  /-- Go `&strconv.NumError{"ParseUint", num, strconv.ErrRange}` -/
  | numRangeErr (num : List Char)
  /-- Go `*os.PathError` of `os.Open` -/
  | pathErr (path : String)
  /-- an error produced by a library (csv, gob, grpc), identified by a code -/
  | libErr (code : Nat)
  deriving DecidableEq, Repr

/-- How a Go call ends: it returns a value, the process terminates (`os.Exit`,
`log.Fatalf`), or it panics. -/
inductive Outcome (α : Type) where
  | ret (a : α)
  | exit (code : Nat)
  | panicked
  deriving DecidableEq, Repr

deriving instance DecidableEq for Except

/-- Raw bytes (`[]byte`). -/
abbrev Bytes := List Nat

/-! ## `strings.Trim` and `strconv.ParseUint` -/

/-- Go `strings.TrimLeft(s, " ")`: drop the leading spaces. -/
def TrimLeft : List Char → List Char
  | [] => []
  | c :: cs => if c = ' ' then TrimLeft cs else c :: cs

/-- Go `strings.TrimRight(s, " ")`: drop the trailing spaces. -/
def TrimRight (s : List Char) : List Char :=
  (TrimLeft s.reverse).reverse

/-- Go `strings.Trim(s, " ")`, the only cutset the client uses. -/
def Trim (s : List Char) : List Char :=
  TrimLeft (TrimRight s)

/-- Constant `maxUint64` of package strconv. -/
def maxUint64 : Nat := 2 ^ 64 - 1

/-- Constant `cutoff` of `ParseUint` for base 10: `maxUint64/10 + 1`. -/
def cutoff : Nat := maxUint64 / 10 + 1

/-- Constant `maxVal` of `ParseUint` for bitSize 64: `uint64(1)<<64 - 1` in wrapping
`uint64` arithmetic. -/
def maxVal : Nat := ((1 * 2 ^ 64) % 2 ^ 64 + 2 ^ 64 - 1) % 2 ^ 64

/-- One byte of the `ParseUint` loop: the digit value `d` of `c`, or `none` for the
`default` branch (a syntax error).  `lower(c)` is `c | ('x' - 'X')`. -/
def digitVal (c : Char) : Option Nat :=
  if 48 ≤ c.toNat ∧ c.toNat ≤ 57 then some (c.toNat - 48)
  else if 97 ≤ (c.toNat ||| 32) ∧ (c.toNat ||| 32) ≤ 122 then some ((c.toNat ||| 32) - 97 + 10)
  else none

/-- The `for _, c := range []byte(s)` loop of `ParseUint(s0, 10, 64)`, with accumulator `n`. -/
def parseLoop (s0 : List Char) : Nat → List Char → Except Error Nat
  | n, [] => .ok n
  | n, c :: cs =>
    match digitVal c with
    | none => .error (.numSyntaxErr s0)
    | some d =>
      if d ≥ 10 then .error (.numSyntaxErr s0)
      else if n ≥ cutoff then .error (.numRangeErr s0)
      else
        let n10 := (n * 10) % 2 ^ 64
        let n1 := (n10 + d) % 2 ^ 64
        if n1 < n10 ∨ n1 > maxVal then .error (.numRangeErr s0)
        else parseLoop s0 n1 cs

/-- Go `strconv.ParseUint(s, 10, 64)`. -/
def ParseUint (s : List Char) : Except Error Nat :=
  if s = [] then .error (.numSyntaxErr s) else parseLoop s 0 s

/-! ## The cell and row loops of `WriteFromFile` (lines 76-90) -/

/-- Body of the inner loop: what one cell `val` appends to `dataRow`, or the error returned. -/
def parseCell (val : List Char) : Except Error Nat :=
  if Trim val = [] then .ok 0
  else
    match ParseUint val with
    | .error err => .error err
    | .ok u => .ok u

/-- Inner loop `for _, val := range row`, starting from `dataRow`. -/
def parseRow : List Nat → List (List Char) → Except Error (List Nat)
  | dataRow, [] => .ok dataRow
  | dataRow, val :: rest =>
    match parseCell val with
    | .error err => .error err
    | .ok u => parseRow (dataRow ++ [u]) rest

/-- Outer loop `for _, row := range rows`, starting from `data`. -/
def parseRows : List (List Nat) → List (List (List Char)) → Except Error (List (List Nat))
  | data, [] => .ok data
  | data, row :: rest =>
    match parseRow [] row with
    | .error err => .error err
    | .ok dataRow => parseRows (data ++ [dataRow]) rest

/-! ## External collaborators -/

/-- Modelled from the spec: struct `In`, declared outside `client.go`.  It is the envelope
that pairs scheme parameters with a ciphertext; the client sets its two fields `Params`
and `Res`. -/
structure In (Parameters Ciphertext : Type) where
  Params : Parameters
  Res : Ciphertext

/-- The lattigo `bfv` package, `encoding/gob` and `encoding/csv`, as the client uses them.
They are outside the repository, so they are parameters of the embedding.  Randomised
operations take the entropy they draw as an argument.  A `bfv` call that is handed a key
read from a record, a vector of the caller or a ciphertext of the server returns `none`
when it panics.  A gob encoder returns the bytes it
wrote together with its error; a gob decoder takes the value it decodes into and returns
the value afterwards together with its error. -/
structure Lib where
  /-- Go `bfv.Parameters` -/
  Parameters : Type
  /-- Go `bfv.SecretKey` -/
  SecretKey : Type
  /-- Go `bfv.PublicKey` -/
  PublicKey : Type
  /-- Go `bfv.Plaintext` -/
  Plaintext : Type
  /-- Go `bfv.Ciphertext` -/
  Ciphertext : Type
  /-- Go `bfv.Encryptor` -/
  Encryptor : Type
  /-- Go `bfv.Decryptor` -/
  Decryptor : Type
  /-- Go `bfv.SecretKey{}` -/
  zeroSecretKey : SecretKey
  /-- Go `bfv.PublicKey{}` -/
  zeroPublicKey : PublicKey
  /-- Go `bfv.Ciphertext{}`, the `Res` field of `In{}` -/
  zeroCiphertext : Ciphertext
  /-- Go `bfv.NewKeyGenerator(params).GenKeyPair()` -/
  GenKeyPair : Parameters → Nat → SecretKey × PublicKey
  /-- Go `bfv.NewPlaintext(params)`: a fresh plaintext, all coefficients zero -/
  NewPlaintext : Parameters → Plaintext
  /-- Go `bfv.NewEncoder(params).EncodeUint(values, plaintext)`; `none` when it panics -/
  EncodeUint : Parameters → List Nat → Plaintext → Option Plaintext
  /-- Go `bfv.NewEncryptorFromPk(params, pk)`; `none` when it panics, as it does on a
  zero-value key -/
  NewEncryptorFromPk : Parameters → PublicKey → Option Encryptor
  /-- Go `bfv.NewEncryptorFromSk(params, sk)`; `none` when it panics, as it does on a
  zero-value key -/
  NewEncryptorFromSk : Parameters → SecretKey → Option Encryptor
  /-- Go `encryptor.EncryptNew(plaintext)`; `none` when it panics -/
  EncryptNew : Encryptor → Plaintext → Nat → Option Ciphertext
  /-- Go `bfv.NewDecryptor(params, sk)`; `none` when it panics -/
  NewDecryptor : Parameters → SecretKey → Option Decryptor
  /-- Go `decryptor.DecryptNew(ciphertext)`; `none` when it panics -/
  DecryptNew : Decryptor → Ciphertext → Option Plaintext
  /-- Go `bfv.NewEncoder(params).DecodeUint(plaintext)` -/
  DecodeUint : Parameters → Plaintext → List Nat
  /-- Go `gob.NewEncoder(w).Encode(sk)` -/
  gobEncodeSk : SecretKey → Bytes × Option Error
  /-- Go `gob.NewEncoder(w).Encode(pk)` -/
  gobEncodePk : PublicKey → Bytes × Option Error
  /-- Go `gob.NewEncoder(w).Encode(ciphertext)` -/
  gobEncodeCt : Ciphertext → Bytes × Option Error
  /-- Go `gob.NewEncoder(w).Encode(&out)` for `out` of type `In` -/
  gobEncodeIn : In Parameters Ciphertext → Bytes × Option Error
  /-- Go `gob.NewDecoder(r).Decode(&sk)` -/
  gobDecodeSk : Bytes → SecretKey → SecretKey × Option Error
  /-- Go `gob.NewDecoder(r).Decode(&pk)` -/
  gobDecodePk : Bytes → PublicKey → PublicKey × Option Error
  /-- Go `gob.NewDecoder(r).Decode(&ciphertext)` -/
  gobDecodeCt : Bytes → Ciphertext → Ciphertext × Option Error
  /-- Go `csv.NewReader(file).ReadAll()` on the content of the file -/
  csvReadAll : Bytes → Except Error (List (List (List Char)))

/-- A request the client has put on the wire, with the server address dialed and the
`token` metadata attached. -/
inductive Call where
  /-- Go `c.UploadFile(ctx, &UploadRequest{File: file})` -/
  | UploadFile (server token : String) (file : Bytes)
  /-- Go `c.EvalFiles(ctx, &EvalRequest{Request, Fromtimestamp, Totimestamp})` -/
  | EvalFiles (server token : String) (request : Bytes) (fromTimestamp toTimestamp : Int)
  deriving DecidableEq, Repr

/-- Everything outside the process that the client reads or changes. -/
structure World where
  /-- content of each existing file, by path -/
  files : String → Option Bytes
  /-- paths at which `os.Create` fails -/
  createFails : String → Bool
  /-- paths at which writing to the open file fails -/
  writeFails : String → Bool
  /-- server addresses for which `grpc.Dial` returns an error -/
  dialFails : String → Bool
  /-- position in the entropy source -/
  entropy : Nat
  /-- requests sent so far, oldest first -/
  calls : List Call
  /-- the `error` of `UploadFile`, for the last request of the list -/
  uploadReply : List Call → Option Error
  /-- the outcome of `EvalFiles`, for the last request of the list: an error, or
  `r.GetMessage()` and `r.GetResponse()` -/
  evalReply : List Call → Except Error (List Char × Bytes)

/-- Replace the content of the file at `path`. -/
def World.setFile (w : World) (path : String) (content : Bytes) : World :=
  { w with files := fun p => if p = path then some content else w.files p }

/-- One randomised library call has drawn from the entropy source. -/
def World.draw (w : World) : World :=
  { w with entropy := w.entropy + 1 }

/-- Put a request on the wire. -/
def World.send (w : World) (c : Call) : World :=
  { w with calls := w.calls ++ [c] }

/-- A gob encoder writes `content` to the file just created at `path`; when the write
fails the file stays as `os.Create` left it. -/
def World.encodeTo (w : World) (path : String) (content : Bytes) : World :=
  if w.writeFails path then w else w.setFile path content

/-- Struct `Client`. -/
structure Client where
  serverUrl : String
  token : String
  deriving DecidableEq, Repr

/-! ## Key records -/

/-- Function `readKeys` (lines 191-207).  Both `Decode` errors are discarded. -/
def readKeys (L : Lib) (w : World) : Outcome (L.SecretKey × L.PublicKey) :=
  match w.files "enc.sk" with
  | none => .exit 1
  | some file =>
    let riderSk := (L.gobDecodeSk file L.zeroSecretKey).1
    match w.files "enc.pk" with
    | none => .exit 1
    | some filepk =>
      let riderPk := (L.gobDecodePk filepk L.zeroPublicKey).1
      .ret (riderSk, riderPk)

/-- Method `GenKeys` (lines 135-152).  Both `Encode` errors are discarded. -/
def GenKeys (L : Lib) (params : L.Parameters) (w : World) : Outcome Unit × World :=
  let keys := L.GenKeyPair params w.entropy
  let riderSk := keys.1
  let riderPk := keys.2
  let w := w.draw
  if w.createFails "enc.pk" then (.exit 1, w)
  else
    let w := w.setFile "enc.pk" []
    let w := w.encodeTo "enc.pk" (L.gobEncodePk riderPk).1
    if w.createFails "enc.sk" then (.exit 1, w)
    else
      let w := w.setFile "enc.sk" []
      let w := w.encodeTo "enc.sk" (L.gobEncodeSk riderSk).1
      (.ret (), w)

/-! ## Write path -/

/-- Method `Write` (lines 105-133). -/
def Write (L : Lib) (cl : Client) (params : L.Parameters) (values : List Nat) (w : World) :
    Outcome (Option Error) × World :=
  if w.dialFails cl.serverUrl then (.exit 1, w)
  else
    match readKeys L w with
    | .exit code => (.exit code, w)
    | .panicked => (.panicked, w)
    | .ret (_, publicKey) =>
      match L.NewEncryptorFromPk params publicKey with
      | none => (.panicked, w)
      | some enc =>
        let filePlaintext := L.NewPlaintext params
        match L.EncodeUint params values filePlaintext with
        | none => (.panicked, w)
        | some filePlaintext =>
          match L.EncryptNew enc filePlaintext w.entropy with
          | none => (.panicked, w)
          | some FilesCiphertext =>
            let w := w.draw
            let b := L.gobEncodeCt FilesCiphertext
            match b.2 with
            | some err => (.ret (some err), w)
            | none =>
              let w := w.send (.UploadFile cl.serverUrl cl.token b.1)
              (.ret (w.uploadReply w.calls), w)

/-- The loop of `WriteMulti` (lines 96-102) over any per-row `write`. -/
def WriteMultiWith {σ : Type} (write : List Nat → σ → Outcome (Option Error) × σ) :
    List (List Nat) → σ → Outcome (Option Error) × σ
  | [], s => (.ret none, s)
  | dataRow :: rest, s =>
    match write dataRow s with
    | (.ret none, s) => WriteMultiWith write rest s
    | (.ret (some err), s) => (.ret (some err), s)
    | (.exit code, s) => (.exit code, s)
    | (.panicked, s) => (.panicked, s)

/-- Method `WriteMulti` (lines 94-103). -/
def WriteMulti (L : Lib) (cl : Client) (params : L.Parameters) (data : List (List Nat))
    (w : World) : Outcome (Option Error) × World :=
  WriteMultiWith (Write L cl params) data w

/-- Method `WriteFromFile` (lines 64-92). -/
def WriteFromFile (L : Lib) (cl : Client) (params : L.Parameters) (filename : String)
    (w : World) : Outcome (Option Error) × World :=
  match w.files filename with
  | none => (.ret (some (.pathErr filename)), w)
  | some file =>
    match L.csvReadAll file with
    | .error err => (.ret (some err), w)
    | .ok rows =>
      match parseRows [] rows with
      | .error err => (.ret (some err), w)
      | .ok data => WriteMulti L cl params data w

/-! ## Evaluation path -/

/-- Method `prepareRequest` (lines 173-189). -/
def prepareRequest (L : Lib) (params : L.Parameters) (w : World) :
    Outcome (Except Error Bytes) × World :=
  let resPlaintext := L.NewPlaintext params
  match readKeys L w with
  | .exit code => (.exit code, w)
  | .panicked => (.panicked, w)
  | .ret (secretKey, _) =>
    match L.NewEncryptorFromSk params secretKey with
    | none => (.panicked, w)
    | some encryptorSk =>
      match L.EncryptNew encryptorSk resPlaintext w.entropy with
      | none => (.panicked, w)
      | some res =>
        let w := w.draw
        let out : In L.Parameters L.Ciphertext := { Params := params, Res := res }
        let b := L.gobEncodeIn out
        match b.2 with
        | some err => (.ret (.error err), w)
        | none => (.ret (.ok b.1), w)

/-- Function `decResult` (lines 209-214). -/
def decResult (L : Lib) (params : L.Parameters) (res : L.Ciphertext) (w : World) :
    Outcome (List Nat) :=
  match readKeys L w with
  | .exit code => .exit code
  | .panicked => .panicked
  | .ret (riderSk, _) =>
    match L.NewDecryptor params riderSk with
    | none => .panicked
    | some decryptor =>
      match L.DecryptNew decryptor res with
      | none => .panicked
      | some plaintext => .ret (L.DecodeUint params plaintext)

/-- Method `EvalReq` (lines 31-62). -/
def EvalReq (L : Lib) (cl : Client) (params : L.Parameters) (fromTimestamp toTimestamp : Int)
    (w : World) : Outcome (Except Error (List Nat)) × World :=
  if w.dialFails cl.serverUrl then (.exit 1, w)
  else
    match prepareRequest L params w with
    | (.exit code, w) => (.exit code, w)
    | (.panicked, w) => (.panicked, w)
    | (.ret (.error err), w) => (.ret (.error err), w)
    | (.ret (.ok req), w) =>
      let w := w.send (.EvalFiles cl.serverUrl cl.token req fromTimestamp toTimestamp)
      match w.evalReply w.calls with
      | .error err => (.ret (.error err), w)
      | .ok (_message, response) =>
        let inr := L.gobDecodeCt response L.zeroCiphertext
        match inr.2 with
        | some err => (.ret (.error err), w)
        | none =>
          match decResult L params inr.1 w with
          | .exit code => (.exit code, w)
          | .panicked => (.panicked, w)
          | .ret v => (.ret (.ok v), w)

/-! ## The input format in the words of the specification -/

/-- A decimal digit character. -/
def IsDigit (c : Char) : Prop := 48 ≤ c.toNat ∧ c.toNat ≤ 57

instance (c : Char) : Decidable (IsDigit c) := by
  unfold IsDigit; infer_instance

/-- Value of a string of decimal digits, most significant digit first. -/
def decimalValue (s : List Char) : Nat :=
  s.foldl (fun n c => 10 * n + (c.toNat - 48)) 0

/-- A valid base-10 unsigned 64-bit numeral: one or more decimal digits, nothing else,
denoting a value of at most `2 ^ 64 - 1`. -/
def IsUint64Numeral (s : List Char) : Prop :=
  s ≠ [] ∧ (∀ c ∈ s, IsDigit c) ∧ decimalValue s < 2 ^ 64

instance (s : List Char) : Decidable (IsUint64Numeral s) := by
  unfold IsUint64Numeral; infer_instance

/-- A blank cell: empty, or spaces only. -/
def IsBlank (s : List Char) : Prop := ∀ c ∈ s, c = ' '

instance (s : List Char) : Decidable (IsBlank s) := by
  unfold IsBlank; infer_instance

/-- The number a well-formed cell stands for: 0 when blank, its numeric value otherwise. -/
def cellValue (s : List Char) : Nat :=
  if IsBlank s then 0 else decimalValue s

/-- A malformed numeric cell: not blank and not a valid numeral. -/
def IsMalformed (s : List Char) : Prop := ¬ IsBlank s ∧ ¬ IsUint64Numeral s

instance (s : List Char) : Decidable (IsMalformed s) := by
  unfold IsMalformed; infer_instance

/-! ## Auxiliary notions for the statements -/

/-- The digits read after accumulator `n`. -/
def digitsFrom (n : Nat) (s : List Char) : Nat :=
  s.foldl (fun n c => 10 * n + (c.toNat - 48)) n

/-- A per-row write that also records, in call order, the rows it was called on. -/
def logged {σ : Type} (write : List Nat → σ → Outcome (Option Error) × σ) :
    List Nat → σ × List (List Nat) → Outcome (Option Error) × (σ × List (List Nat)) :=
  fun row s => ((write row s.1).1, ((write row s.1).2, s.2 ++ [row]))

/-- State reached by writing the rows one after the other, all of them. -/
def runAll {σ : Type} (write : List Nat → σ → Outcome (Option Error) × σ) :
    List (List Nat) → σ → σ
  | [], s => s
  | row :: rest, s => runAll write rest (write row s).2

/-- Each write of the rows, done one after the other from `s`, returns nil. -/
def allSucceed {σ : Type} (write : List Nat → σ → Outcome (Option Error) × σ) :
    List (List Nat) → σ → Prop
  | [], _ => True
  | row :: rest, s => (write row s).1 = .ret none ∧ allSucceed write rest (write row s).2

/-! ## A concrete instance for worked runs -/

/-- A small instance of the library interface: the parameters are a plaintext modulus, a
key is a number, the zero-value key 0 is unusable (building an encryptor or a decryptor
from it panics), a plaintext has four slots, encryption adds the key in every slot modulo
the plaintext modulus, decryption panics on a ciphertext that has not four slots, gob
writes the numbers as they are, and csv splits on line feeds and commas. -/
@[reducible]
def demoLib : Lib where
  Parameters := Nat
  SecretKey := Nat
  PublicKey := Nat
  Plaintext := List Nat
  Ciphertext := List Nat
  Encryptor := Nat × Nat
  Decryptor := Nat × Nat
  zeroSecretKey := 0
  zeroPublicKey := 0
  zeroCiphertext := []
  GenKeyPair := fun _ r => (r + 1, r + 1)
  NewPlaintext := fun _ => [0, 0, 0, 0]
  EncodeUint := fun t values _ =>
    if values.length ≤ 4 then
      some (values.map (fun x => x % t) ++ List.replicate (4 - values.length) 0)
    else none
  NewEncryptorFromPk := fun t pk => if pk = 0 then none else some (t, pk)
  NewEncryptorFromSk := fun t sk => if sk = 0 then none else some (t, sk)
  EncryptNew := fun enc pt _ =>
    if pt.length = 4 then some (pt.map (fun x => (x + enc.2) % enc.1)) else none
  NewDecryptor := fun t sk => if sk = 0 then none else some (t, sk)
  DecryptNew := fun dec ct =>
    if ct.length = 4 then some (ct.map (fun x => (x + (dec.1 - dec.2 % dec.1)) % dec.1))
    else none
  DecodeUint := fun _ pt => pt
  gobEncodeSk := fun sk => ([sk], none)
  gobEncodePk := fun pk => ([pk], none)
  gobEncodeCt := fun ct => (ct, none)
  gobEncodeIn := fun out => (out.Params :: out.Res, none)
  gobDecodeSk := fun b sk =>
    match b with
    | [k] => (k, none)
    | _ => (sk, some (.libErr 1))
  gobDecodePk := fun b pk =>
    match b with
    | [k] => (k, none)
    | _ => (pk, some (.libErr 1))
  gobDecodeCt := fun b ct => if b.length = 4 then (b, none) else (ct, some (.libErr 1))
  csvReadAll := fun b =>
    .ok ((b.splitOn 10).map (fun line => (line.splitOn 44).map (fun cell => cell.map Char.ofNat)))

/-- A client of a local server. -/
def demoClient : Client := { serverUrl := "localhost:50051", token := "t0" }

/-- Files of the worked runs: both key records hold key 3, `data.csv` holds the two
lines `1,2,3` and `4, ,6`, and `bad.csv` holds these and a third line `7,x,9`. -/
def demoFiles (p : String) : Option Bytes :=
  if p = "enc.sk" then some [3]
  else if p = "enc.pk" then some [3]
  else if p = "data.csv" then some [49, 44, 50, 44, 51, 10, 52, 44, 32, 44, 54]
  else if p = "bad.csv" then
    some [49, 44, 50, 44, 51, 10, 52, 44, 32, 44, 54, 10, 55, 44, 120, 44, 57]
  else none

/-- A world in which everything works and the server accepts every upload. -/
def demoWorld : World where
  files := demoFiles
  createFails := fun _ => false
  writeFails := fun _ => false
  dialFails := fun _ => false
  entropy := 0
  calls := []
  uploadReply := fun _ => none
  evalReply := fun _ => .error (.libErr 2)

/-- A world like `demoWorld` whose server answers an evaluation with the message
`2 files` and the result bytes `53 3 3 3`, the encryption of `[50, 0, 0, 0]` under
plaintext modulus 100 and key 3. -/
def demoEvalWorld : World :=
  { demoWorld with evalReply := fun _ => .ok ("2 files".toList, [53, 3, 3, 3]) }

/-- A world like `demoWorld` in which the secret-key record is empty, so that decoding
it fails. -/
def demoCorruptWorld : World :=
  { demoWorld with files := fun p => if p = "enc.sk" then some [] else demoFiles p }

/-- A world like `demoWorld` without a secret-key record. -/
def demoMissingWorld : World :=
  { demoWorld with files := fun p => if p = "enc.sk" then none else demoFiles p }

/-- A world like `demoWorld` at entropy position 5 in which `enc.pk` can be created but
not written (a full disk). -/
def demoFullDiskWorld : World :=
  { demoWorld with writeFails := fun p => decide (p = "enc.pk"), entropy := 5 }

/-- The table that `data.csv` holds. -/
def demoTable : List (List (List Char)) :=
  [["1".toList, "2".toList, "3".toList], ["4".toList, " ".toList, "6".toList]]

/-- The table that `bad.csv` holds. -/
def demoBadTable : List (List (List Char)) :=
  [["1".toList, "2".toList, "3".toList], ["4".toList, " ".toList, "6".toList],
    ["7".toList, "x".toList, "9".toList]]

/-! ## Facts about trimming and numeral parsing -/

theorem TrimLeft_eq_nil_iff (s : List Char) : TrimLeft s = [] ↔ IsBlank s := by
  induction s with
  | nil => simp [TrimLeft, IsBlank]
  | cons c cs ih =>
    unfold TrimLeft
    by_cases h : c = ' '
    · simp only [h, if_true, ih]
      simp [IsBlank]
    · simp only [h, if_false]
      simp [IsBlank, h]

theorem TrimLeft_blank (s : List Char) (h : IsBlank (TrimLeft s)) : TrimLeft s = [] := by
  induction s with
  | nil => simp [TrimLeft]
  | cons c cs ih =>
    unfold TrimLeft at h ⊢
    by_cases hc : c = ' '
    · simp only [hc, if_true] at h ⊢
      exact ih h
    · simp only [hc, if_false] at h
      exact absurd (h c (List.mem_cons_self _ _)) hc

theorem IsBlank_reverse (s : List Char) : IsBlank s.reverse ↔ IsBlank s := by
  simp [IsBlank]

theorem Trim_eq_nil_iff (s : List Char) : Trim s = [] ↔ IsBlank s := by
  unfold Trim TrimRight
  rw [TrimLeft_eq_nil_iff, IsBlank_reverse]
  constructor
  · intro h
    have h2 := TrimLeft_blank _ h
    rw [TrimLeft_eq_nil_iff, IsBlank_reverse] at h2
    exact h2
  · intro h
    have h2 : TrimLeft s.reverse = [] := by
      rw [TrimLeft_eq_nil_iff, IsBlank_reverse]; exact h
    rw [h2]
    simp [IsBlank]

theorem digitsFrom_ge (s : List Char) (n : Nat) : n ≤ digitsFrom n s := by
  induction s generalizing n with
  | nil => simp [digitsFrom]
  | cons c cs ih =>
    have h := ih (10 * n + (c.toNat - 48))
    simp only [digitsFrom, List.foldl_cons] at h ⊢
    omega

theorem digitVal_of_digit (c : Char) (h : IsDigit c) : digitVal c = some (c.toNat - 48) := by
  unfold digitVal
  unfold IsDigit at h
  simp [h]

theorem digitVal_not_digit (c : Char) (h : ¬ IsDigit c) :
    digitVal c = none ∨ ∃ d, digitVal c = some d ∧ d ≥ 10 := by
  unfold digitVal
  unfold IsDigit at h
  rw [if_neg h]
  by_cases h2 : 97 ≤ (c.toNat ||| 32) ∧ (c.toNat ||| 32) ≤ 122
  · right
    rw [if_pos h2]
    exact ⟨_, rfl, by omega⟩
  · left
    rw [if_neg h2]

theorem parseLoop_ok_iff (s0 s : List Char) (n m : Nat) (hn : n < 2 ^ 64) :
    parseLoop s0 n s = .ok m ↔ (∀ c ∈ s, IsDigit c) ∧ digitsFrom n s = m ∧ m < 2 ^ 64 := by
  induction s generalizing n with
  | nil =>
    simp only [parseLoop, digitsFrom, List.foldl_nil, List.not_mem_nil, false_implies,
      implies_true, true_and, Except.ok.injEq]
    constructor
    · intro h; subst h; exact ⟨rfl, hn⟩
    · intro h; exact h.1
  | cons c cs ih =>
    by_cases hc : IsDigit c
    · have hd := digitVal_of_digit c hc
      have hc2 := hc
      unfold IsDigit at hc2
      have hlt : ¬ (c.toNat - 48 ≥ 10) := by omega
      have hge := digitsFrom_ge cs (10 * n + (c.toNat - 48))
      have hstep : digitsFrom n (c :: cs) = digitsFrom (10 * n + (c.toNat - 48)) cs := by
        simp [digitsFrom]
      unfold parseLoop
      simp only [hd, hlt, if_false]
      by_cases hcut : n ≥ cutoff
      · simp only [hcut, if_true]
        have : cutoff = 1844674407370955162 := by decide
        constructor
        · intro h; cases h
        · rintro ⟨-, h2, h3⟩
          rw [hstep] at h2
          omega
      · simp only [hcut, if_false]
        have hcutv : cutoff = 1844674407370955162 := by decide
        have hmaxv : maxVal = 18446744073709551615 := by decide
        have h10 : (n * 10) % 2 ^ 64 = n * 10 := by
          apply Nat.mod_eq_of_lt; omega
        rw [h10]
        by_cases hov : n * 10 + (c.toNat - 48) < 2 ^ 64
        · have h1 : (n * 10 + (c.toNat - 48)) % 2 ^ 64 = n * 10 + (c.toNat - 48) :=
            Nat.mod_eq_of_lt hov
          rw [h1]
          have hno : ¬ (n * 10 + (c.toNat - 48) < n * 10 ∨ n * 10 + (c.toNat - 48) > maxVal) := by
            rw [hmaxv]; omega
          simp only [hno, if_false]
          rw [ih (n * 10 + (c.toNat - 48)) hov, hstep]
          have e : 10 * n + (c.toNat - 48) = n * 10 + (c.toNat - 48) := by omega
          rw [e]
          constructor
          · rintro ⟨a, b, d⟩
            exact ⟨by intro x hx; rcases List.mem_cons.1 hx with rfl | hx; exact hc; exact a x hx, b, d⟩
          · rintro ⟨a, b, d⟩
            exact ⟨fun x hx => a x (List.mem_cons_of_mem _ hx), b, d⟩
        · have h1 : (n * 10 + (c.toNat - 48)) % 2 ^ 64 = n * 10 + (c.toNat - 48) - 2 ^ 64 := by
            rw [Nat.mod_eq_sub_mod (by omega)]
            apply Nat.mod_eq_of_lt; omega
          rw [h1]
          have hyes : n * 10 + (c.toNat - 48) - 2 ^ 64 < n * 10 ∨
              n * 10 + (c.toNat - 48) - 2 ^ 64 > maxVal := by
            left; omega
          simp only [hyes, if_true]
          constructor
          · intro h; cases h
          · rintro ⟨-, h2, h3⟩
            rw [hstep] at h2
            omega
    · have hno : ¬ (∀ x ∈ c :: cs, IsDigit x) := fun h => hc (h c (List.mem_cons_self _ _))
      unfold parseLoop
      rcases digitVal_not_digit c hc with h | ⟨d, h, hd⟩
      · simp only [h]
        constructor
        · intro h; cases h
        · intro h; exact absurd h.1 hno
      · simp only [h, hd, if_true]
        constructor
        · intro h; cases h
        · intro h; exact absurd h.1 hno

/-- The function `ParseUint` accepts exactly the valid numerals and returns their value. -/
theorem ParseUint_ok_iff (s : List Char) (m : Nat) :
    ParseUint s = .ok m ↔ IsUint64Numeral s ∧ decimalValue s = m := by
  unfold ParseUint IsUint64Numeral
  by_cases hs : s = []
  · simp [hs]
  · simp only [hs, if_false]
    rw [parseLoop_ok_iff s s 0 m (by norm_num)]
    simp only [digitsFrom, decimalValue]
    constructor
    · rintro ⟨a, b, c⟩
      exact ⟨⟨hs, a, by rw [b]; exact c⟩, b⟩
    · rintro ⟨⟨_, a, c⟩, b⟩
      exact ⟨a, b, by rw [← b]; exact c⟩

/-- Every failure of `ParseUint` is a `NumError` about its argument. -/
theorem parseLoop_error (s0 s : List Char) (n : Nat) (e : Error)
    (h : parseLoop s0 n s = .error e) : e = .numSyntaxErr s0 ∨ e = .numRangeErr s0 := by
  induction s generalizing n with
  | nil => simp [parseLoop] at h
  | cons c cs ih =>
    unfold parseLoop at h
    split at h
    · left; cases h; rfl
    · split at h
      · left; cases h; rfl
      · split at h
        · right; cases h; rfl
        · simp only at h
          split at h
          · right; cases h; rfl
          · exact ih _ h

theorem ParseUint_error (s : List Char) (e : Error) (h : ParseUint s = .error e) :
    e = .numSyntaxErr s ∨ e = .numRangeErr s := by
  unfold ParseUint at h
  split at h
  · left; cases h; rfl
  · exact parseLoop_error s s 0 e h

/-! ## Facts about the cell and row loops -/

theorem numeral_not_blank (s : List Char) (h : IsUint64Numeral s) : ¬ IsBlank s := by
  intro hb
  obtain ⟨hne, hd, -⟩ := h
  cases s with
  | nil => exact hne rfl
  | cons c cs =>
    have h1 := hd c (List.mem_cons_self _ _)
    have h2 := hb c (List.mem_cons_self _ _)
    subst h2
    revert h1
    decide

theorem parseCell_wellFormed (s : List Char) (h : IsBlank s ∨ IsUint64Numeral s) :
    parseCell s = .ok (cellValue s) := by
  unfold parseCell cellValue
  by_cases hb : IsBlank s
  · rw [if_pos ((Trim_eq_nil_iff s).2 hb), if_pos hb]
  · have hnum : IsUint64Numeral s := h.resolve_left hb
    have hnt : ¬ Trim s = [] := fun e => hb ((Trim_eq_nil_iff s).1 e)
    rw [if_neg hnt, if_neg hb, (ParseUint_ok_iff s (decimalValue s)).2 ⟨hnum, rfl⟩]

theorem parseCell_malformed (s : List Char) (h : IsMalformed s) :
    ∃ e, ParseUint s = .error e ∧ parseCell s = .error e := by
  obtain ⟨hb, hnum⟩ := h
  have hnt : ¬ Trim s = [] := fun e => hb ((Trim_eq_nil_iff s).1 e)
  unfold parseCell
  rw [if_neg hnt]
  cases hp : ParseUint s with
  | error e => exact ⟨e, rfl, rfl⟩
  | ok u => exact absurd ((ParseUint_ok_iff s u).1 hp).1 hnum

theorem wellFormed_or_malformed (s : List Char) :
    (IsBlank s ∨ IsUint64Numeral s) ∨ IsMalformed s := by
  unfold IsMalformed
  by_cases hb : IsBlank s
  · exact Or.inl (Or.inl hb)
  · by_cases hn : IsUint64Numeral s
    · exact Or.inl (Or.inr hn)
    · exact Or.inr ⟨hb, hn⟩

theorem parseRow_wellFormed (row : List (List Char)) (dataRow : List Nat)
    (h : ∀ cell ∈ row, IsBlank cell ∨ IsUint64Numeral cell) :
    parseRow dataRow row = .ok (dataRow ++ row.map cellValue) := by
  induction row generalizing dataRow with
  | nil => simp [parseRow]
  | cons val rest ih =>
    unfold parseRow
    rw [parseCell_wellFormed val (h val (List.mem_cons_self _ _))]
    simp only
    rw [ih _ (fun cell hc => h cell (List.mem_cons_of_mem _ hc))]
    simp

theorem parseRows_wellFormed (rows : List (List (List Char))) (data : List (List Nat))
    (h : ∀ row ∈ rows, ∀ cell ∈ row, IsBlank cell ∨ IsUint64Numeral cell) :
    parseRows data rows = .ok (data ++ rows.map (fun row => row.map cellValue)) := by
  induction rows generalizing data with
  | nil => simp [parseRows]
  | cons row rest ih =>
    unfold parseRows
    rw [parseRow_wellFormed row [] (h row (List.mem_cons_self _ _))]
    simp only
    rw [ih _ (fun r hr => h r (List.mem_cons_of_mem _ hr))]
    simp

theorem parseRow_malformed (row : List (List Char)) (dataRow : List Nat)
    (h : ∃ cell ∈ row, IsMalformed cell) :
    ∃ cell e, cell ∈ row ∧ IsMalformed cell ∧ ParseUint cell = .error e ∧
      parseRow dataRow row = .error e := by
  induction row generalizing dataRow with
  | nil => obtain ⟨c, hc, -⟩ := h; cases hc
  | cons val rest ih =>
    unfold parseRow
    rcases wellFormed_or_malformed val with hw | hm
    · rw [parseCell_wellFormed val hw]
      simp only
      obtain ⟨c, hc, hcm⟩ := h
      have hrest : ∃ cell ∈ rest, IsMalformed cell := by
        rcases List.mem_cons.1 hc with rfl | hc
        · exact absurd hw (by
            rintro (hb | hn)
            · exact hcm.1 hb
            · exact hcm.2 hn)
        · exact ⟨c, hc, hcm⟩
      obtain ⟨cell, e, h1, h2, h3, h4⟩ := ih _ hrest
      exact ⟨cell, e, List.mem_cons_of_mem _ h1, h2, h3, h4⟩
    · obtain ⟨e, h1, h2⟩ := parseCell_malformed val hm
      rw [h2]
      exact ⟨val, e, List.mem_cons_self _ _, hm, h1, rfl⟩

theorem parseRow_ok_wellFormed (row : List (List Char)) (dataRow out : List Nat)
    (h : parseRow dataRow row = .ok out) : ∀ cell ∈ row, ¬ IsMalformed cell := by
  intro cell hc hm
  obtain ⟨_, e, _, _, _, h4⟩ := parseRow_malformed row dataRow ⟨cell, hc, hm⟩
  rw [h4] at h
  cases h

theorem parseRows_malformed (rows : List (List (List Char))) (data : List (List Nat))
    (h : ∃ row ∈ rows, ∃ cell ∈ row, IsMalformed cell) :
    ∃ cell e, IsMalformed cell ∧ ParseUint cell = .error e ∧ parseRows data rows = .error e := by
  induction rows generalizing data with
  | nil => obtain ⟨r, hr, -⟩ := h; cases hr
  | cons row rest ih =>
    unfold parseRows
    cases hp : parseRow [] row with
    | error e =>
      by_cases hrow : ∃ cell ∈ row, IsMalformed cell
      · obtain ⟨cell, e2, _, h2, h3, h4⟩ := parseRow_malformed row [] hrow
        rw [hp] at h4
        cases h4
        exact ⟨cell, e, h2, h3, rfl⟩
      · have hw : ∀ cell ∈ row, IsBlank cell ∨ IsUint64Numeral cell := by
          intro cell hc
          rcases wellFormed_or_malformed cell with hw | hm
          · exact hw
          · exact absurd ⟨cell, hc, hm⟩ hrow
        rw [parseRow_wellFormed row [] hw] at hp
        cases hp
    | ok dataRow =>
      simp only
      obtain ⟨r, hr, c, hc, hcm⟩ := h
      have hrest : ∃ row ∈ rest, ∃ cell ∈ row, IsMalformed cell := by
        rcases List.mem_cons.1 hr with rfl | hr
        · exact absurd hcm (parseRow_ok_wellFormed r [] dataRow hp c hc)
        · exact ⟨r, hr, c, hc, hcm⟩
      exact ih _ hrest

/-- A table with a malformed cell: `WriteFromFile` returns the `ParseUint` error of a
malformed cell and leaves the world as it found it. -/
theorem WriteFromFile_malformed (L : Lib) (cl : Client) (params : L.Parameters)
    (filename : String) (w : World) (file : Bytes) (rows : List (List (List Char)))
    (hopen : w.files filename = some file) (hcsv : L.csvReadAll file = .ok rows)
    (hbad : ∃ row ∈ rows, ∃ cell ∈ row, IsMalformed cell) :
    ∃ cell e, IsMalformed cell ∧ ParseUint cell = .error e ∧
      WriteFromFile L cl params filename w = (.ret (some e), w) := by
  obtain ⟨cell, e, h1, h2, h3⟩ := parseRows_malformed rows [] hbad
  refine ⟨cell, e, h1, h2, ?_⟩
  unfold WriteFromFile
  simp only [hopen, hcsv, h3]

/-! ## Facts about the write loop -/

theorem WriteMultiWith_run {σ : Type} (write : List Nat → σ → Outcome (Option Error) × σ)
    (rows : List (List Nat)) (s : σ) :
    (allSucceed write rows s ∧ WriteMultiWith write rows s = (.ret none, runAll write rows s)) ∨
    (∃ pre row post, rows = pre ++ row :: post ∧ allSucceed write pre s ∧
      (write row (runAll write pre s)).1 ≠ .ret none ∧
      WriteMultiWith write rows s = write row (runAll write pre s)) := by
  induction rows generalizing s with
  | nil => left; exact ⟨trivial, rfl⟩
  | cons r rs ih =>
    by_cases hok : (write r s).1 = .ret none
    · have hstep : WriteMultiWith write (r :: rs) s = WriteMultiWith write rs (write r s).2 := by
        conv_lhs => unfold WriteMultiWith
        rcases hw : write r s with ⟨o, s1⟩
        rw [hw] at hok
        simp only at hok
        subst hok
        rfl
      rcases ih (write r s).2 with ⟨h1, h2⟩ | ⟨pre, row, post, h1, h2, h3, h4⟩
      · left
        exact ⟨⟨hok, h1⟩, by rw [hstep, h2]; rfl⟩
      · right
        refine ⟨r :: pre, row, post, by rw [h1]; rfl, ⟨hok, h2⟩, h3, ?_⟩
        rw [hstep, h4]
        rfl
    · right
      refine ⟨[], r, rs, rfl, trivial, hok, ?_⟩
      show WriteMultiWith write (r :: rs) s = write r s
      unfold WriteMultiWith
      rcases hw : write r s with ⟨o, s1⟩
      rw [hw] at hok
      simp only at hok
      cases o with
      | ret a =>
        cases a with
        | none => exact absurd rfl hok
        | some e => rfl
      | exit c => rfl
      | panicked => rfl

theorem allSucceed_append_fail {σ : Type} (write : List Nat → σ → Outcome (Option Error) × σ)
    (pre post : List (List Nat)) (row : List Nat) (s : σ)
    (hfail : (write row (runAll write pre s)).1 ≠ .ret none) :
    ¬ allSucceed write (pre ++ row :: post) s := by
  induction pre generalizing s with
  | nil => intro h; exact hfail h.1
  | cons r rs ih => intro h; exact ih (write r s).2 hfail h.2

theorem runAll_logged {σ : Type} (write : List Nat → σ → Outcome (Option Error) × σ)
    (rows : List (List Nat)) (s : σ) (log : List (List Nat)) :
    runAll (logged write) rows (s, log) = (runAll write rows s, log ++ rows) := by
  induction rows generalizing s log with
  | nil => simp [runAll]
  | cons r rs ih =>
    simp only [runAll, logged]
    rw [ih]
    simp

theorem allSucceed_logged {σ : Type} (write : List Nat → σ → Outcome (Option Error) × σ)
    (rows : List (List Nat)) (s : σ) (log : List (List Nat)) :
    allSucceed (logged write) rows (s, log) ↔ allSucceed write rows s := by
  induction rows generalizing s log with
  | nil => simp [allSucceed]
  | cons r rs ih =>
    simp only [allSucceed, logged]
    rw [ih]

/-! ## Bulk load -/

/-- C1: for a table whose cells are each blank or a valid base-10 unsigned 64-bit numeral,
the rows parse to one vector per row, in row order, each cell giving one entry (0 for a
blank cell, the numeric value otherwise), and `WriteFromFile` hands exactly these vectors
to `WriteMulti`; the cells of the rows `1,2,3` and `4, ,6` give `[1,2,3]` and `[4,0,6]`. -/
theorem WriteFromFile_passes_parsed_rows (L : Lib) (cl : Client) (params : L.Parameters)
    (filename : String) (w : World) (file : Bytes) (rows : List (List (List Char)))
    (hopen : w.files filename = some file) (hcsv : L.csvReadAll file = .ok rows)
    (hcells : ∀ row ∈ rows, ∀ cell ∈ row, IsBlank cell ∨ IsUint64Numeral cell) :
    parseRows [] rows = .ok (rows.map (fun row => row.map cellValue)) ∧
    WriteFromFile L cl params filename w =
      WriteMulti L cl params (rows.map (fun row => row.map cellValue)) w ∧
    parseRows [] demoTable = .ok [[1, 2, 3], [4, 0, 6]] := by
  have hp := parseRows_wellFormed rows [] hcells
  simp only [List.nil_append] at hp
  refine ⟨hp, ?_, by decide⟩
  unfold WriteFromFile
  simp only [hopen, hcsv, hp]

theorem WriteFromFile_passes_parsed_rows_witness :
    demoWorld.files "data.csv" = some [49, 44, 50, 44, 51, 10, 52, 44, 32, 44, 54] ∧
    demoLib.csvReadAll [49, 44, 50, 44, 51, 10, 52, 44, 32, 44, 54] = .ok demoTable ∧
    (parseRows [] demoTable = .ok (demoTable.map (fun row => row.map cellValue)) ∧
      WriteFromFile demoLib demoClient (100 : Nat) "data.csv" demoWorld =
        WriteMulti demoLib demoClient (100 : Nat)
          (demoTable.map (fun row => row.map cellValue)) demoWorld ∧
      parseRows [] demoTable = .ok [[1, 2, 3], [4, 0, 6]]) :=
  ⟨by decide, by decide,
    WriteFromFile_passes_parsed_rows demoLib demoClient (100 : Nat) "data.csv" demoWorld
      [49, 44, 50, 44, 51, 10, 52, 44, 32, 44, 54] demoTable (by decide) (by decide)
      (by decide)⟩

/-- C2: when the table read from the file has a malformed cell anywhere, `WriteFromFile`
returns the `ParseUint` error of a malformed cell and the world is as before the call: no
request was sent, also not for the well-formed rows before the malformed one. -/
theorem WriteFromFile_malformed_sends_nothing (L : Lib) (cl : Client) (params : L.Parameters)
    (filename : String) (w : World) (file : Bytes) (rows : List (List (List Char)))
    (hopen : w.files filename = some file) (hcsv : L.csvReadAll file = .ok rows)
    (hbad : ∃ row ∈ rows, ∃ cell ∈ row, IsMalformed cell) :
    ∃ cell e, IsMalformed cell ∧ ParseUint cell = .error e ∧
      (e = .numSyntaxErr cell ∨ e = .numRangeErr cell) ∧
      WriteFromFile L cl params filename w = (.ret (some e), w) ∧
      (WriteFromFile L cl params filename w).2.calls = w.calls := by
  obtain ⟨cell, e, h1, h2, h3⟩ := WriteFromFile_malformed L cl params filename w file rows
    hopen hcsv hbad
  exact ⟨cell, e, h1, h2, ParseUint_error cell e h2, h3, by rw [h3]⟩

theorem WriteFromFile_malformed_sends_nothing_witness :
    ∃ cell e, IsMalformed cell ∧ ParseUint cell = .error e ∧
      (e = .numSyntaxErr cell ∨ e = .numRangeErr cell) ∧
      WriteFromFile demoLib demoClient (100 : Nat) "bad.csv" demoWorld = (.ret (some e), demoWorld) ∧
      (WriteFromFile demoLib demoClient (100 : Nat) "bad.csv" demoWorld).2.calls = demoWorld.calls :=
  WriteFromFile_malformed_sends_nothing demoLib demoClient (100 : Nat) "bad.csv" demoWorld
    [49, 44, 50, 44, 51, 10, 52, 44, 32, 44, 54, 10, 55, 44, 120, 44, 57] demoBadTable
    (by decide) (by decide) ⟨["7".toList, "x".toList, "9".toList], by decide, "x".toList,
      by decide, by decide⟩

/-- C10: for a cell that is not blank after trimming spaces, the cell is accepted exactly
when the untrimmed text is a valid base-10 unsigned 64-bit numeral, and the accepted value
is that numeral; a file holding a cell that is not blank and not such a numeral fails to
load; the row `4, 5,6` fails on the cell ` 5`, and a trailing space, a sign, a value of
`2 ^ 64` and a lone tab are errors as well. -/
theorem parseCell_parses_untrimmed (cell : List Char) (hnonblank : Trim cell ≠ []) :
    ((∃ u, parseCell cell = .ok u) ↔ IsUint64Numeral cell) ∧
    (∀ u, parseCell cell = .ok u → u = decimalValue cell) ∧
    (¬ IsUint64Numeral cell →
      ∀ (L : Lib) (cl : Client) (params : L.Parameters) (filename : String) (w : World)
        (file : Bytes) (rows : List (List (List Char))),
        w.files filename = some file → L.csvReadAll file = .ok rows →
        (∃ row ∈ rows, cell ∈ row) →
        ∃ e, WriteFromFile L cl params filename w = (.ret (some e), w)) ∧
    parseRows [] [["4".toList, " 5".toList, "6".toList]] = .error (.numSyntaxErr " 5".toList) ∧
    parseCell "5 ".toList = .error (.numSyntaxErr "5 ".toList) ∧
    parseCell "+5".toList = .error (.numSyntaxErr "+5".toList) ∧
    parseCell "-5".toList = .error (.numSyntaxErr "-5".toList) ∧
    parseCell "18446744073709551615".toList = .ok 18446744073709551615 ∧
    parseCell "18446744073709551616".toList =
      .error (.numRangeErr "18446744073709551616".toList) ∧
    parseCell "\t".toList = .error (.numSyntaxErr "\t".toList) := by
  have hparse : parseCell cell = ParseUint cell := by
    unfold parseCell
    rw [if_neg hnonblank]
    cases ParseUint cell <;> rfl
  have hnb : ¬ IsBlank cell := fun h => hnonblank ((Trim_eq_nil_iff cell).2 h)
  refine ⟨?_, ?_, ?_, by decide, by decide, by decide, by decide, by decide, by decide,
    by decide⟩
  · rw [hparse]
    constructor
    · rintro ⟨u, hu⟩
      exact ((ParseUint_ok_iff cell u).1 hu).1
    · intro h
      exact ⟨decimalValue cell, (ParseUint_ok_iff cell _).2 ⟨h, rfl⟩⟩
  · intro u hu
    rw [hparse] at hu
    exact ((ParseUint_ok_iff cell u).1 hu).2.symm
  · intro hnum L cl params filename w file rows hopen hcsv hmem
    obtain ⟨row, hrow, hcell⟩ := hmem
    obtain ⟨_, e, _, _, h3⟩ := WriteFromFile_malformed L cl params filename w file rows
      hopen hcsv ⟨row, hrow, cell, hcell, hnb, hnum⟩
    exact ⟨e, h3⟩

theorem parseCell_parses_untrimmed_witness :
    Trim " 5".toList ≠ [] ∧ ¬ IsUint64Numeral " 5".toList ∧
      ¬ (∃ u, parseCell " 5".toList = .ok u) :=
  ⟨by decide, by decide, fun h =>
    absurd ((parseCell_parses_untrimmed " 5".toList (by decide)).1.1 h) (by decide)⟩

/-! ## Stop at the first failure -/

/-- C3: over any per-row `Write`, `WriteMulti` calls it on the rows in index order, once
per row.  Either every call returned nil, then the calls are exactly the rows and nil is
returned; or the rows split as `pre ++ row :: post` where every call on `pre` returned
nil and the call on `row` did not, then the calls are exactly `pre ++ [row]`, the state is
the one that failing call left (nothing after it, nothing undone) and its result is
returned.  Nil is returned exactly when every call succeeded.  The same holds for the
client's own `Write` as the per-row call. -/
theorem WriteMulti_stops_at_first_failure {σ : Type}
    (write : List Nat → σ → Outcome (Option Error) × σ) (rows : List (List Nat)) (s : σ)
    (L : Lib) (cl : Client) (params : L.Parameters) (w : World) :
    ((WriteMultiWith (logged write) rows (s, [])).1 = .ret none ↔ allSucceed write rows s) ∧
    ((allSucceed write rows s ∧
        WriteMultiWith (logged write) rows (s, []) = (.ret none, (runAll write rows s, rows))) ∨
      (∃ pre row post, rows = pre ++ row :: post ∧ allSucceed write pre s ∧
        (write row (runAll write pre s)).1 ≠ .ret none ∧
        WriteMultiWith (logged write) rows (s, []) =
          ((write row (runAll write pre s)).1,
            ((write row (runAll write pre s)).2, pre ++ [row])))) ∧
    ((allSucceed (Write L cl params) rows w ∧
        WriteMulti L cl params rows w = (.ret none, runAll (Write L cl params) rows w)) ∨
      (∃ pre row post, rows = pre ++ row :: post ∧ allSucceed (Write L cl params) pre w ∧
        (Write L cl params row (runAll (Write L cl params) pre w)).1 ≠ .ret none ∧
        WriteMulti L cl params rows w =
          Write L cl params row (runAll (Write L cl params) pre w))) ∧
    WriteMultiWith (logged write) [] (s, []) = (.ret none, (s, [])) := by
  have key : (allSucceed write rows s ∧
        WriteMultiWith (logged write) rows (s, []) = (.ret none, (runAll write rows s, rows))) ∨
      (∃ pre row post, rows = pre ++ row :: post ∧ allSucceed write pre s ∧
        (write row (runAll write pre s)).1 ≠ .ret none ∧
        WriteMultiWith (logged write) rows (s, []) =
          ((write row (runAll write pre s)).1,
            ((write row (runAll write pre s)).2, pre ++ [row]))) := by
    rcases WriteMultiWith_run (logged write) rows (s, []) with ⟨h1, h2⟩ | ⟨pre, row, post, h1, h2, h3, h4⟩
    · left
      rw [runAll_logged] at h2
      exact ⟨(allSucceed_logged write rows s []).1 h1, by simpa using h2⟩
    · right
      rw [runAll_logged] at h3 h4
      refine ⟨pre, row, post, h1, (allSucceed_logged write pre s []).1 h2, h3, ?_⟩
      rw [h4]
      simp [logged]
  refine ⟨?_, key, WriteMultiWith_run (Write L cl params) rows w, rfl⟩
  rcases key with ⟨h1, h2⟩ | ⟨pre, row, post, h1, h2, h3, h4⟩
  · rw [h2]
    exact ⟨fun _ => h1, fun _ => rfl⟩
  · rw [h4]
    constructor
    · intro h
      exact absurd h h3
    · intro h
      rw [h1] at h
      exact absurd h (allSucceed_append_fail write pre post row s h3)

/-! ## Single write -/

/-- C4: let dialing succeed and the key records load.  If no encryptor can be built from
the loaded public key, `Write` panics and sends nothing.  If the encryptor is built, the
encoder accepts the vector, encryption returns a ciphertext and that ciphertext
serializes, then `Write` sends exactly one request, an upload whose payload is the gob
encoding of the ciphertext alone (no parameters), the ciphertext being the encryption of
the encoded vector by the encryptor of the public key, and `Write` returns what that
upload returned. -/
theorem Write_uploads_bare_ciphertext (L : Lib) (cl : Client) (params : L.Parameters)
    (values : List Nat) (w : World) (sk : L.SecretKey) (pk : L.PublicKey)
    (hdial : w.dialFails cl.serverUrl = false)
    (hkeys : readKeys L w = .ret (sk, pk)) :
    (L.NewEncryptorFromPk params pk = none →
      Write L cl params values w = (.panicked, w)) ∧
    (∀ enc pt ct, L.NewEncryptorFromPk params pk = some enc →
      L.EncodeUint params values (L.NewPlaintext params) = some pt →
      L.EncryptNew enc pt w.entropy = some ct →
      (L.gobEncodeCt ct).2 = none →
      (Write L cl params values w).2.calls =
        w.calls ++ [.UploadFile cl.serverUrl cl.token (L.gobEncodeCt ct).1] ∧
      (Write L cl params values w).1 =
        .ret (w.uploadReply
          (w.calls ++ [.UploadFile cl.serverUrl cl.token (L.gobEncodeCt ct).1]))) := by
  constructor
  · intro hctor
    unfold Write
    simp only [hdial, hkeys, hctor, Bool.false_eq_true, if_false]
  · intro enc pt ct hctor henc hcrypt hser
    unfold Write
    simp only [hdial, hkeys, hctor, henc, hcrypt, hser, Bool.false_eq_true, if_false]
    exact ⟨rfl, rfl⟩

theorem Write_uploads_bare_ciphertext_witness :
    (Write demoLib demoClient (100 : Nat) [1, 2, 3] demoWorld).2.calls =
      demoWorld.calls ++ [.UploadFile "localhost:50051" "t0" [4, 5, 6, 3]] ∧
    (Write demoLib demoClient (100 : Nat) [1, 2, 3] demoWorld).1 =
      .ret (demoWorld.uploadReply
        (demoWorld.calls ++ [.UploadFile "localhost:50051" "t0" [4, 5, 6, 3]])) :=
  (Write_uploads_bare_ciphertext demoLib demoClient (100 : Nat) [1, 2, 3] demoWorld
    (3 : Nat) (3 : Nat) (by decide) (by decide)).2
    (((100 : Nat), (3 : Nat)) : Nat × Nat) ([1, 2, 3, 0] : List Nat)
    ([4, 5, 6, 3] : List Nat) (by decide) (by decide) (by decide) (by decide)

/-! ## Evaluation -/

theorem prepareRequest_panics (L : Lib) (params : L.Parameters) (w : World)
    (sk : L.SecretKey) (pk : L.PublicKey) (hkeys : readKeys L w = .ret (sk, pk))
    (hpanic : L.NewEncryptorFromSk params sk = none ∨
      ∃ enc, L.NewEncryptorFromSk params sk = some enc ∧
        L.EncryptNew enc (L.NewPlaintext params) w.entropy = none) :
    prepareRequest L params w = (.panicked, w) := by
  unfold prepareRequest
  rcases hpanic with h | ⟨enc, h1, h2⟩
  · simp only [hkeys, h]
  · simp only [hkeys, h1, h2]

theorem prepareRequest_ok (L : Lib) (params : L.Parameters) (w : World)
    (sk : L.SecretKey) (pk : L.PublicKey) (enc : L.Encryptor) (res : L.Ciphertext)
    (hkeys : readKeys L w = .ret (sk, pk))
    (hctor : L.NewEncryptorFromSk params sk = some enc)
    (hcrypt : L.EncryptNew enc (L.NewPlaintext params) w.entropy = some res)
    (hser : (L.gobEncodeIn ⟨params, res⟩).2 = none) :
    prepareRequest L params w = (.ret (.ok (L.gobEncodeIn ⟨params, res⟩).1), w.draw) := by
  unfold prepareRequest
  simp only [hkeys, hctor, hcrypt, hser]

theorem prepareRequest_error (L : Lib) (params : L.Parameters) (w : World)
    (sk : L.SecretKey) (pk : L.PublicKey) (enc : L.Encryptor) (res : L.Ciphertext)
    (err : Error) (hkeys : readKeys L w = .ret (sk, pk))
    (hctor : L.NewEncryptorFromSk params sk = some enc)
    (hcrypt : L.EncryptNew enc (L.NewPlaintext params) w.entropy = some res)
    (hser : (L.gobEncodeIn ⟨params, res⟩).2 = some err) :
    prepareRequest L params w = (.ret (.error err), w.draw) := by
  unfold prepareRequest
  simp only [hkeys, hctor, hcrypt, hser]

theorem readKeys_send_draw (L : Lib) (w : World) (c : Call) :
    readKeys L (w.draw.send c) = readKeys L w := rfl

/-- What `EvalReq` does once its request is on the wire: the world stays the one with the
request sent, whatever the reply. -/
theorem EvalReq_after_send (L : Lib) (cl : Client) (params : L.Parameters)
    (fromTimestamp toTimestamp : Int) (w : World) (req : Bytes)
    (hdial : w.dialFails cl.serverUrl = false)
    (hreq : prepareRequest L params w = (.ret (.ok req), w.draw)) :
    (EvalReq L cl params fromTimestamp toTimestamp w).2 =
      w.draw.send (.EvalFiles cl.serverUrl cl.token req fromTimestamp toTimestamp) := by
  unfold EvalReq
  simp only [hdial, hreq, Bool.false_eq_true, if_false]
  split
  · rfl
  · split
    · rfl
    · split <;> rfl

/-- C5: let dialing succeed and the key records load.  If no encryptor can be built from
the loaded secret key, or encrypting panics, `EvalReq` panics and sends nothing.  If
building the payload fails, `EvalReq` returns that error and sends nothing.  Otherwise the
one request `EvalReq` sends is an `EvalFiles` whose payload is the gob encoding of the pair
of the caller's parameters and the encryption of the fresh all-zero plaintext by the
encryptor of the loaded secret key, with the caller's two timestamps in their places. -/
theorem EvalReq_request (L : Lib) (cl : Client) (params : L.Parameters)
    (fromTimestamp toTimestamp : Int) (w : World) (sk : L.SecretKey) (pk : L.PublicKey)
    (hdial : w.dialFails cl.serverUrl = false)
    (hkeys : readKeys L w = .ret (sk, pk)) :
    ((L.NewEncryptorFromSk params sk = none ∨
        ∃ enc, L.NewEncryptorFromSk params sk = some enc ∧
          L.EncryptNew enc (L.NewPlaintext params) w.entropy = none) →
      EvalReq L cl params fromTimestamp toTimestamp w = (.panicked, w)) ∧
    (∀ enc res, L.NewEncryptorFromSk params sk = some enc →
      L.EncryptNew enc (L.NewPlaintext params) w.entropy = some res →
      (∀ err, (L.gobEncodeIn ⟨params, res⟩).2 = some err →
        (EvalReq L cl params fromTimestamp toTimestamp w).1 = .ret (.error err) ∧
        (EvalReq L cl params fromTimestamp toTimestamp w).2.calls = w.calls) ∧
      ((L.gobEncodeIn ⟨params, res⟩).2 = none →
        (EvalReq L cl params fromTimestamp toTimestamp w).2.calls =
          w.calls ++ [.EvalFiles cl.serverUrl cl.token (L.gobEncodeIn ⟨params, res⟩).1
            fromTimestamp toTimestamp])) := by
  constructor
  · intro hpanic
    unfold EvalReq
    simp only [hdial, prepareRequest_panics L params w sk pk hkeys hpanic,
      Bool.false_eq_true, if_false]
  · intro enc res hctor hcrypt
    constructor
    · intro err hser
      unfold EvalReq
      simp only [hdial, prepareRequest_error L params w sk pk enc res err hkeys hctor hcrypt hser,
        Bool.false_eq_true, if_false]
      constructor <;> first | rfl | trivial
    · intro hser
      rw [EvalReq_after_send L cl params fromTimestamp toTimestamp w _ hdial
        (prepareRequest_ok L params w sk pk enc res hkeys hctor hcrypt hser)]
      rfl

theorem EvalReq_request_witness :
    (EvalReq demoLib demoClient (100 : Nat) 10 20 demoWorld).2.calls =
      demoWorld.calls ++ [.EvalFiles "localhost:50051" "t0" [100, 3, 3, 3, 3] 10 20] :=
  ((EvalReq_request demoLib demoClient (100 : Nat) 10 20 demoWorld (3 : Nat) (3 : Nat)
    (by decide) (by decide)).2 (((100 : Nat), (3 : Nat)) : Nat × Nat)
    ([3, 3, 3, 3] : List Nat) (by decide) (by decide)).2 (by decide)

/-- C6: once the request is sent, an error of the transport is returned with no vector, a
failure to deserialize the result bytes is returned with no vector, and otherwise, with
`c` the ciphertext deserialized from the result bytes, whenever the decryptor of the
loaded secret key decrypts `c` the result is exactly the decoding of that decryption,
whatever the message is; when the decryptor cannot be built or panics on `c`, `EvalReq`
panics and returns no vector. -/
theorem EvalReq_reply (L : Lib) (cl : Client) (params : L.Parameters)
    (fromTimestamp toTimestamp : Int) (w : World) (sk : L.SecretKey) (pk : L.PublicKey)
    (enc : L.Encryptor) (res : L.Ciphertext) (w1 : World)
    (hdial : w.dialFails cl.serverUrl = false)
    (hkeys : readKeys L w = .ret (sk, pk))
    (hctor : L.NewEncryptorFromSk params sk = some enc)
    (hcrypt : L.EncryptNew enc (L.NewPlaintext params) w.entropy = some res)
    (hser : (L.gobEncodeIn ⟨params, res⟩).2 = none)
    (hsent : w1 = w.draw.send (.EvalFiles cl.serverUrl cl.token
      (L.gobEncodeIn ⟨params, res⟩).1 fromTimestamp toTimestamp)) :
    (∀ err, w1.evalReply w1.calls = .error err →
      EvalReq L cl params fromTimestamp toTimestamp w = (.ret (.error err), w1)) ∧
    (∀ message response err, w1.evalReply w1.calls = .ok (message, response) →
      (L.gobDecodeCt response L.zeroCiphertext).2 = some err →
      EvalReq L cl params fromTimestamp toTimestamp w = (.ret (.error err), w1)) ∧
    (∀ message response, w1.evalReply w1.calls = .ok (message, response) →
      (L.gobDecodeCt response L.zeroCiphertext).2 = none →
      (∀ dec pt, L.NewDecryptor params sk = some dec →
        L.DecryptNew dec (L.gobDecodeCt response L.zeroCiphertext).1 = some pt →
        EvalReq L cl params fromTimestamp toTimestamp w =
          (.ret (.ok (L.DecodeUint params pt)), w1)) ∧
      ((L.NewDecryptor params sk = none ∨
          ∃ dec, L.NewDecryptor params sk = some dec ∧
            L.DecryptNew dec (L.gobDecodeCt response L.zeroCiphertext).1 = none) →
        EvalReq L cl params fromTimestamp toTimestamp w = (.panicked, w1))) := by
  subst hsent
  have hreq := prepareRequest_ok L params w sk pk enc res hkeys hctor hcrypt hser
  refine ⟨?_, ?_, ?_⟩
  · intro err hrep
    unfold EvalReq
    simp only [hdial, hreq, Bool.false_eq_true, if_false, hrep]
  · intro message response err hrep hdec
    unfold EvalReq
    simp only [hdial, hreq, Bool.false_eq_true, if_false, hrep, hdec]
  · intro message response hrep hdec
    constructor
    · intro dec pt hd hp
      unfold EvalReq
      simp only [hdial, hreq, Bool.false_eq_true, if_false, hrep, hdec]
      unfold decResult
      simp only [readKeys_send_draw, hkeys, hd, hp]
    · intro hpanic
      unfold EvalReq
      simp only [hdial, hreq, Bool.false_eq_true, if_false, hrep, hdec]
      unfold decResult
      rcases hpanic with hd | ⟨dec, hd, hp⟩
      · simp only [readKeys_send_draw, hkeys, hd]
      · simp only [readKeys_send_draw, hkeys, hd, hp]

theorem EvalReq_reply_witness :
    EvalReq demoLib demoClient (100 : Nat) 10 20 demoEvalWorld =
      (.ret (.ok (demoLib.DecodeUint (100 : Nat) ([50, 0, 0, 0] : List Nat))),
        demoEvalWorld.draw.send (.EvalFiles "localhost:50051" "t0" [100, 3, 3, 3, 3] 10 20)) :=
  ((EvalReq_reply demoLib demoClient (100 : Nat) 10 20 demoEvalWorld (3 : Nat) (3 : Nat)
      (((100 : Nat), (3 : Nat)) : Nat × Nat) ([3, 3, 3, 3] : List Nat)
      (demoEvalWorld.draw.send (.EvalFiles "localhost:50051" "t0" [100, 3, 3, 3, 3] 10 20))
      (by decide) (by decide) (by decide) (by decide) (by decide) rfl).2.2
      "2 files".toList [53, 3, 3, 3] rfl (by decide)).1
    (((100 : Nat), (3 : Nat)) : Nat × Nat) ([50, 0, 0, 0] : List Nat) (by decide) (by decide)

/-- C9, counterexample: the result bytes `53 3 3 3` are the serialization of a ciphertext
produced under plaintext modulus 100, where it decrypts to `[50, 0, 0, 0]`; `EvalReq`
called with plaintext modulus 7 returns no error but the vector `[1, 0, 0, 0]`. -/
theorem EvalReq_mismatch_returns_vector :
    (100 : Nat) ≠ 7 ∧
    (demoLib.EncryptNew (((100 : Nat), (3 : Nat)) : Nat × Nat) ([50, 0, 0, 0] : List Nat) 0).map
      (fun ct => (demoLib.gobEncodeCt ct).1) = some [53, 3, 3, 3] ∧
    demoEvalWorld.evalReply
      (demoEvalWorld.draw.send (.EvalFiles "localhost:50051" "t0" [7, 3, 3, 3, 3] 10 20)).calls =
      .ok ("2 files".toList, [53, 3, 3, 3]) ∧
    (EvalReq demoLib demoClient (100 : Nat) 10 20 demoEvalWorld).1 = .ret (.ok [50, 0, 0, 0]) ∧
    (EvalReq demoLib demoClient (7 : Nat) 10 20 demoEvalWorld).1 = .ret (.ok [1, 0, 0, 0]) := by
  decide

/-- C9, amended: `EvalReq` compares no parameters.  When the result bytes are the
serialization of a ciphertext `c` produced under parameters `A` and gob gives `c` back,
`EvalReq` called with parameters `B` never returns an error: whenever the decryptor built
under `B` decrypts `c`, it returns the decoding under `B` of that decryption, a vector;
otherwise it panics. -/
theorem EvalReq_ignores_producer_parameters (L : Lib) (cl : Client) (A B : L.Parameters)
    (fromTimestamp toTimestamp : Int) (w : World) (sk : L.SecretKey) (pk : L.PublicKey)
    (enc : L.Encryptor) (res : L.Ciphertext) (w1 : World) (message : List Char)
    (key : L.PublicKey) (encA : L.Encryptor) (pt : L.Plaintext) (r : Nat) (c : L.Ciphertext)
    (hdial : w.dialFails cl.serverUrl = false)
    (hkeys : readKeys L w = .ret (sk, pk))
    (hctor : L.NewEncryptorFromSk B sk = some enc)
    (hcrypt : L.EncryptNew enc (L.NewPlaintext B) w.entropy = some res)
    (hser : (L.gobEncodeIn ⟨B, res⟩).2 = none)
    (hsent : w1 = w.draw.send (.EvalFiles cl.serverUrl cl.token
      (L.gobEncodeIn ⟨B, res⟩).1 fromTimestamp toTimestamp))
    (hencA : L.NewEncryptorFromPk A key = some encA)
    (hprod : L.EncryptNew encA pt r = some c)
    (hreply : w1.evalReply w1.calls = .ok (message, (L.gobEncodeCt c).1))
    (hgob : L.gobDecodeCt (L.gobEncodeCt c).1 L.zeroCiphertext = (c, none)) :
    (∀ dec ptB, L.NewDecryptor B sk = some dec → L.DecryptNew dec c = some ptB →
      EvalReq L cl B fromTimestamp toTimestamp w = (.ret (.ok (L.DecodeUint B ptB)), w1)) ∧
    (∀ err, (EvalReq L cl B fromTimestamp toTimestamp w).1 ≠ .ret (.error err)) ∧
    ((EvalReq L cl B fromTimestamp toTimestamp w).1 = .panicked ∨
      ∃ v, (EvalReq L cl B fromTimestamp toTimestamp w).1 = .ret (.ok v)) := by
  subst hsent
  have _hproducer := And.intro hencA hprod
  have hreq := prepareRequest_ok L B w sk pk enc res hkeys hctor hcrypt hser
  have hrun : EvalReq L cl B fromTimestamp toTimestamp w =
      match decResult L B c (w.draw.send (.EvalFiles cl.serverUrl cl.token
          (L.gobEncodeIn ⟨B, res⟩).1 fromTimestamp toTimestamp)) with
      | .exit code => (.exit code, w.draw.send (.EvalFiles cl.serverUrl cl.token
          (L.gobEncodeIn ⟨B, res⟩).1 fromTimestamp toTimestamp))
      | .panicked => (.panicked, w.draw.send (.EvalFiles cl.serverUrl cl.token
          (L.gobEncodeIn ⟨B, res⟩).1 fromTimestamp toTimestamp))
      | .ret v => (.ret (.ok v), w.draw.send (.EvalFiles cl.serverUrl cl.token
          (L.gobEncodeIn ⟨B, res⟩).1 fromTimestamp toTimestamp)) := by
    unfold EvalReq
    simp only [hdial, hreq, Bool.false_eq_true, if_false, hreply, hgob]
  have hdec : decResult L B c (w.draw.send (.EvalFiles cl.serverUrl cl.token
      (L.gobEncodeIn ⟨B, res⟩).1 fromTimestamp toTimestamp)) =
      match L.NewDecryptor B sk with
      | none => .panicked
      | some dec =>
        match L.DecryptNew dec c with
        | none => .panicked
        | some p => .ret (L.DecodeUint B p) := by
    unfold decResult
    simp only [readKeys_send_draw, hkeys]
  rw [hdec] at hrun
  cases hd : L.NewDecryptor B sk with
  | none =>
    simp only [hd] at hrun
    rw [hrun]
    refine ⟨?_, ?_, Or.inl rfl⟩
    · intro dec ptB h
      cases h
    · intro err h
      cases h
  | some dec =>
    simp only [hd] at hrun
    cases hp : L.DecryptNew dec c with
    | none =>
      simp only [hp] at hrun
      rw [hrun]
      refine ⟨?_, ?_, Or.inl rfl⟩
      · intro dec2 ptB h1 h2
        cases h1
        rw [hp] at h2
        cases h2
      · intro err h
        cases h
    | some ptB =>
      simp only [hp] at hrun
      rw [hrun]
      refine ⟨?_, ?_, Or.inr ⟨_, rfl⟩⟩
      · intro dec2 ptB2 h1 h2
        cases h1
        rw [hp] at h2
        cases h2
        rfl
      · intro err h
        cases h

theorem EvalReq_ignores_producer_parameters_witness :
    EvalReq demoLib demoClient (7 : Nat) 10 20 demoEvalWorld =
      (.ret (.ok (demoLib.DecodeUint (7 : Nat) ([1, 0, 0, 0] : List Nat))),
        demoEvalWorld.draw.send (.EvalFiles "localhost:50051" "t0" [7, 3, 3, 3, 3] 10 20)) :=
  (EvalReq_ignores_producer_parameters demoLib demoClient (100 : Nat) (7 : Nat) 10 20
    demoEvalWorld (3 : Nat) (3 : Nat) (((7 : Nat), (3 : Nat)) : Nat × Nat)
    ([3, 3, 3, 3] : List Nat)
    (demoEvalWorld.draw.send (.EvalFiles "localhost:50051" "t0" [7, 3, 3, 3, 3] 10 20))
    "2 files".toList (3 : Nat) (((100 : Nat), (3 : Nat)) : Nat × Nat)
    ([50, 0, 0, 0] : List Nat) 0 ([53, 3, 3, 3] : List Nat)
    (by decide) (by decide) (by decide) (by decide) (by decide) rfl (by decide) (by decide)
    rfl (by decide)).1
    (((7 : Nat), (3 : Nat)) : Nat × Nat) ([1, 0, 0, 0] : List Nat) (by decide) (by decide)

/-! ## Key records -/

/-- When both key files can be created and written, gob gives back each key it encoded
and the scheme decrypts under a generated secret key what was encrypted under its public
key, `readKeys` right after `GenKeys` returns the pair that `GenKeys` generated, whatever
the records held before, and encryption under the loaded public key is undone by
decryption under the loaded secret key. -/
theorem GenKeys_then_readKeys (L : Lib) (params : L.Parameters) (w : World)
    (hcpk : w.createFails "enc.pk" = false) (hcsk : w.createFails "enc.sk" = false)
    (hwpk : w.writeFails "enc.pk" = false) (hwsk : w.writeFails "enc.sk" = false)
    (hsk : ∀ k, (L.gobDecodeSk (L.gobEncodeSk k).1 L.zeroSecretKey).1 = k)
    (hpk : ∀ k, (L.gobDecodePk (L.gobEncodePk k).1 L.zeroPublicKey).1 = k)
    (hscheme : ∀ e pt r, ∃ enc dec ct,
      L.NewEncryptorFromPk params (L.GenKeyPair params e).2 = some enc ∧
      L.NewDecryptor params (L.GenKeyPair params e).1 = some dec ∧
      L.EncryptNew enc pt r = some ct ∧ L.DecryptNew dec ct = some pt) :
    (GenKeys L params w).1 = .ret () ∧
    readKeys L (GenKeys L params w).2 = .ret (L.GenKeyPair params w.entropy) ∧
    (∀ sk pk, readKeys L (GenKeys L params w).2 = .ret (sk, pk) →
      ∀ pt r, ∃ enc dec ct, L.NewEncryptorFromPk params pk = some enc ∧
        L.NewDecryptor params sk = some dec ∧
        L.EncryptNew enc pt r = some ct ∧ L.DecryptNew dec ct = some pt) := by
  have hne : ¬ ("enc.pk" = "enc.sk") := by decide
  have hread : readKeys L (GenKeys L params w).2 = .ret (L.GenKeyPair params w.entropy) := by
    unfold GenKeys
    simp only [World.draw, World.encodeTo, World.setFile, hcpk, hcsk, hwpk, hwsk,
      Bool.false_eq_true, if_false]
    unfold readKeys
    simp only [if_true, hne, if_false, hsk, hpk]
  refine ⟨?_, hread, ?_⟩
  · unfold GenKeys
    simp only [World.draw, World.encodeTo, World.setFile, hcpk, hcsk, hwpk, hwsk,
      Bool.false_eq_true, if_false]
  · intro sk pk h pt r
    rw [hread] at h
    have h2 : L.GenKeyPair params w.entropy = (sk, pk) := Outcome.ret.inj h
    have h3 := hscheme w.entropy pt r
    rw [h2] at h3
    exact h3

/-- C7, failing run: with a full disk `enc.pk` is created but not written; `GenKeys`
discards the error of `Encode` and completes, having generated the pair `(6, 6)`, and the
`readKeys` that follows returns the secret key 6 with the zero-value public key, from
which no encryptor can be built: a `Write` that follows panics and sends nothing. -/
theorem GenKeys_full_disk_loses_public_key :
    (GenKeys demoLib (100 : Nat) demoFullDiskWorld).1 = .ret () ∧
    demoLib.GenKeyPair (100 : Nat) demoFullDiskWorld.entropy = (6, 6) ∧
    (GenKeys demoLib (100 : Nat) demoFullDiskWorld).2.files "enc.pk" = some [] ∧
    readKeys demoLib (GenKeys demoLib (100 : Nat) demoFullDiskWorld).2 = .ret (6, 0) ∧
    demoLib.NewEncryptorFromPk (100 : Nat) (0 : Nat) = none ∧
    (Write demoLib demoClient (100 : Nat) [50]
      (GenKeys demoLib (100 : Nat) demoFullDiskWorld).2).1 = .panicked ∧
    (Write demoLib demoClient (100 : Nat) [50]
      (GenKeys demoLib (100 : Nat) demoFullDiskWorld).2).2.calls = [] := by
  decide

/-- C8, counterexample: with an empty secret-key record, whose decoding fails, `readKeys`
returns a pair made of the zero secret key and the stored public key; without a
secret-key record it ends the process and hands no error to its caller. -/
theorem readKeys_corrupt_record_returns_pair :
    demoCorruptWorld.files "enc.sk" = some [] ∧
    (demoLib.gobDecodeSk [] demoLib.zeroSecretKey).2 = some (.libErr 1) ∧
    readKeys demoLib demoCorruptWorld = .ret (0, 3) ∧
    demoMissingWorld.files "enc.sk" = none ∧
    readKeys demoLib demoMissingWorld = .exit 1 := by
  decide

/-- C8, amended: whenever the secret-key record or the public-key record is missing,
`readKeys` ends the process with exit status 1 and returns no key pair. -/
theorem readKeys_missing_record_exits (L : Lib) (w : World)
    (hmissing : w.files "enc.sk" = none ∨ w.files "enc.pk" = none) :
    readKeys L w = .exit 1 := by
  unfold readKeys
  rcases hmissing with h | h
  · simp only [h]
  · cases hs : w.files "enc.sk" with
    | none => rfl
    | some file => simp only [h]

theorem readKeys_missing_record_exits_witness :
    demoMissingWorld.files "enc.sk" = none ∧ readKeys demoLib demoMissingWorld = .exit 1 :=
  ⟨by decide, readKeys_missing_record_exits demoLib demoMissingWorld (Or.inl (by decide))⟩

end Lattix
